import Mathlib

/-!
Verification of the OAuth callback handler of `sites/vjsauth/handler.py`.

The handler is dynamically typed Python, and several of the claims under
scrutiny are precisely about which malformed inputs raise exceptions and
which are converted to error redirects.  The embedding therefore models
Python runtime values (`PyVal`), Python exceptions (`PyErr`), and the
fallible primitive operations the handler performs on them (subscripting,
`.get`, `len`, the `in` operator, truthiness), with `Except PyErr` making
exception propagation explicit.  The handler functions themselves are then
translated statement by statement from `handler.py`.
-/

/-- Python runtime values, restricted to the shapes reachable in the
handler: `None`, booleans, integers, floats (carried as their source
token, see `pyTruthy`), strings, lists and string-keyed dicts (the only
dicts the handler builds or receives from JSON). -/
inductive PyVal where
  | none
  | bool (b : Bool)
  | int (n : Int)
  | floatRaw (s : String)
  | str (s : String)
  | list (xs : List PyVal)
  | dict (kvs : List (String × PyVal))
deriving BEq, Repr

/-- Python exception classes relevant to the handler.  `valueError` also
stands for its subclasses `binascii.Error` and `UnicodeEncodeError`;
`jsonDecodeError` and `unicodeDecodeError` are kept separate because
`exchange_token` catches exactly those two. -/
inductive PyErr where
  | keyError
  | indexError
  | typeError
  | attributeError
  | valueError
  | unicodeDecodeError
  | jsonDecodeError
deriving BEq, DecidableEq, Repr

/-- Digits of a decimal number folded to a natural number. -/
def digitsToNat (ds : List Char) : Nat := ds.foldl (fun a c => a * 10 + (c.toNat - 48)) 0

/-- Whether Python `float(s)` is zero, for a numeric token `s` as the
JSON number parser below produces (optional sign, digits, optional
fraction, optional exponent, or the constants `nan`/`inf`): true exactly
when the mantissa digits are all zero, or the exact decimal value is at
most `2 ^ (-1075)` and therefore rounds to zero in IEEE-754 double
precision (correctly-rounded conversion, ties to even); the constant
tokens have no digits and are never zero. -/
def floatTokenIsZero (s : String) : Bool :=
  let cs1 : List Char :=
    match s.data with
    | '-' :: r => r
    | '+' :: r => r
    | cs0 => cs0
  let intd := cs1.takeWhile (fun c => c.isDigit)
  let cs2 := cs1.drop intd.length
  let fracd : List Char :=
    match cs2 with
    | '.' :: r => r.takeWhile (fun c => c.isDigit)
    | _ => []
  let cs3 : List Char :=
    match cs2 with
    | '.' :: r => r.drop fracd.length
    | _ => cs2
  let expv : Int :=
    match cs3 with
    | e :: r =>
        if e = 'e' ∨ e = 'E' then
          match r with
          | '-' :: rr => -(digitsToNat (rr.takeWhile (fun c => c.isDigit)) : Int)
          | '+' :: rr => (digitsToNat (rr.takeWhile (fun c => c.isDigit)) : Int)
          | rr => (digitsToNat (rr.takeWhile (fun c => c.isDigit)) : Int)
        else 0
    | [] => 0
  let m := digitsToNat (intd ++ fracd)
  if intd.isEmpty ∧ fracd.isEmpty then false
  else if m = 0 then true
  else
    let ee : Int := expv - (fracd.length : Int)
    if 0 ≤ ee then false
    else decide (m * 2 ^ 1075 ≤ 10 ^ ee.natAbs)

/-- Python truthiness (`bool(v)`).  A float is truthy unless its value
is zero (`floatTokenIsZero`). -/
def pyTruthy : PyVal → Bool
  | .none => false
  | .bool b => b
  | .int n => n != 0
  | .floatRaw s => !floatTokenIsZero s
  | .str s => s != ""
  | .list xs => !xs.isEmpty
  | .dict kvs => !kvs.isEmpty

mutual

/-- Python `repr` for the modelled values (used when containers are
stringified).  Escaping inside `repr` of strings is elided; no verified
path stringifies a container holding quotes. -/
def pyRepr : PyVal → String
  | .none => "None"
  | .bool b => if b then "True" else "False"
  | .int n => toString n
  | .floatRaw s => s
  | .str s => "\x27" ++ s ++ "\x27"
  | .list xs => "[" ++ String.intercalate ", " (pyReprList xs) ++ "]"
  | .dict kvs => "\x7b" ++ String.intercalate ", " (pyReprDict kvs) ++ "\x7d"

/-- Representations of the elements of a Python list. -/
def pyReprList : List PyVal → List String
  | [] => []
  | v :: vs => pyRepr v :: pyReprList vs

/-- Representations of the entries of a Python dict. -/
def pyReprDict : List (String × PyVal) → List String
  | [] => []
  | (k, v) :: kvs => ("\x27" ++ k ++ "\x27: " ++ pyRepr v) :: pyReprDict kvs

end

/-- Python `str(v)`, as used by f-strings and `urlencode`. -/
def pyStr : PyVal → String
  | .none => "None"
  | .bool b => if b then "True" else "False"
  | .int n => toString n
  | .floatRaw s => s
  | .str s => s
  | .list xs => pyRepr (.list xs)
  | .dict kvs => pyRepr (.dict kvs)

/-- Python subscripting with a string key (`v[k]`): dict lookup raising
`KeyError` on a missing key, `TypeError` on every non-dict value. -/
def pySubscriptStr : PyVal → String → Except PyErr PyVal
  | .dict kvs, k =>
      match kvs.lookup k with
      | some v => .ok v
      | Option.none => .error .keyError
  | _, _ => .error .typeError

/-- Python subscripting with an integer index (`v[i]`, `i ≥ 0`): list and
string indexing raise `IndexError` out of range; a dict raises `KeyError`
(integer keys never occur in the modelled dicts); anything else raises
`TypeError`. -/
def pySubscriptNat : PyVal → Nat → Except PyErr PyVal
  | .list xs, i =>
      match xs[i]? with
      | some v => .ok v
      | Option.none => .error .indexError
  | .str s, i =>
      match s.data[i]? with
      | some c => .ok (.str (String.mk [c]))
      | Option.none => .error .indexError
  | .dict _, _ => .error .keyError
  | _, _ => .error .typeError

/-- Python `v.get(k, default)`: only dicts have a `get` attribute, every
other value raises `AttributeError`. -/
def pyGet : PyVal → String → PyVal → Except PyErr PyVal
  | .dict kvs, k, d => .ok ((kvs.lookup k).getD d)
  | _, _, _ => .error .attributeError

/-- Python `len(v)` for the modelled values. -/
def pyLen : PyVal → Except PyErr Nat
  | .str s => .ok s.length
  | .list xs => .ok xs.length
  | .dict kvs => .ok kvs.length
  | _ => .error .typeError

/-- Containment of one character list in another, at any position. -/
def containsSubChars (needle : List Char) : List Char → Bool
  | [] => needle.isEmpty
  | c :: rest => needle.isPrefixOf (c :: rest) || containsSubChars needle rest

/-- Python substring containment `needle in haystack` for strings. -/
def containsSub (needle haystack : String) : Bool :=
  containsSubChars needle.data haystack.data

/-- Python `needle in v` for a string needle: substring test on strings,
membership on lists, key membership on dicts, `TypeError` otherwise. -/
def pyInStr (needle : String) : PyVal → Except PyErr Bool
  | .str s => .ok (containsSub needle s)
  | .list xs => .ok (xs.contains (.str needle))
  | .dict kvs => .ok (kvs.any (fun kv => kv.1 == needle))
  | _ => .error .typeError

/-- Standard base64 alphabet, as used by `base64.b64decode` / `b64encode`. -/
def b64alphabet : List Char :=
  "ABCDEFGHIJKLMNOPQRSTUVWXYZabcdefghijklmnopqrstuvwxyz0123456789+/".data

/-- Character for a 6-bit value. -/
def toB64 (n : Nat) : Char := b64alphabet.getD n 'A'

/-- Value of a base64 alphabet character, `none` for other characters. -/
def fromB64 (c : Char) : Option Nat :=
  let i := b64alphabet.indexOf c
  if i < 64 then some i else Option.none

/-- Model of `base64.b64encode` on a byte list (output as characters). -/
def b64encodeBytes : List Nat → List Char
  | [] => []
  | [x] => [toB64 (x / 4), toB64 (x % 4 * 16), '=', '=']
  | [x, y] => [toB64 (x / 4), toB64 (x % 4 * 16 + y / 16), toB64 (y % 16 * 4), '=']
  | x :: y :: z :: rest =>
      toB64 (x / 4) :: toB64 (x % 4 * 16 + y / 16) :: toB64 (y % 16 * 4 + z / 64) ::
        toB64 (z % 64) :: b64encodeBytes rest

/-- Core loop of `binascii.a2b_base64` in its default lenient mode, as
`base64.b64decode` uses it.  Characters outside the alphabet are
discarded.  A six-bit value is accumulated into the current quantum
(`quadPos` counts its data characters, `leftchar` holds the pending
bits), emitting one byte at the second, third and fourth character of a
quantum.  A padding character before two data characters of a quantum is
ignored; otherwise each padding character counts, and as soon as the
quantum position plus the accumulated padding reaches four the whole
decode ends successfully, discarding everything after (so `e30=e30=`
decodes to the two bytes of `e30=`).  Data characters left over in an
unfinished quantum at the end of input are `binascii.Error`. -/
def b64decodeLoop : List Char → Nat → Nat → Nat → Option (List Nat)
  | [], quadPos, _, _ => if quadPos = 0 then some [] else Option.none
  | c :: rest, quadPos, leftchar, pads =>
      if c = '=' then
        if 2 ≤ quadPos then
          if 4 ≤ quadPos + (pads + 1) then some []
          else b64decodeLoop rest quadPos leftchar (pads + 1)
        else b64decodeLoop rest quadPos leftchar pads
      else
        match fromB64 c with
        | some v =>
            if quadPos = 0 then b64decodeLoop rest 1 v pads
            else if quadPos = 1 then
              (b64decodeLoop rest 2 (v % 16) pads).map (fun bs => (leftchar * 4 + v / 16) :: bs)
            else if quadPos = 2 then
              (b64decodeLoop rest 3 (v % 4) pads).map (fun bs => (leftchar * 16 + v / 4) :: bs)
            else
              (b64decodeLoop rest 0 0 pads).map (fun bs => (leftchar * 64 + v) :: bs)
        | Option.none => b64decodeLoop rest quadPos leftchar pads

/-- Model of `base64.b64decode` applied to a Python `str`: a non-ASCII
character makes the implicit `.encode("ascii")` raise (a `ValueError`
subclass); otherwise the lenient `a2b_base64` loop runs, and its
incomplete-quantum failure is `binascii.Error` (also a `ValueError`
subclass). -/
def b64decodePy (s : String) : Except PyErr (List Nat) :=
  if s.data.any (fun c => 0x80 ≤ c.toNat) then .error .valueError
  else
    match b64decodeLoop s.data 0 0 0 with
    | some bs => .ok bs
    | Option.none => .error .valueError

/-- UTF-8 encoding of one Unicode scalar value. -/
def utf8EncodeChar (n : Nat) : List Nat :=
  if n < 0x80 then [n]
  else if n < 0x800 then [0xC0 + n / 64, 0x80 + n % 64]
  else if n < 0x10000 then [0xE0 + n / 4096, 0x80 + n / 64 % 64, 0x80 + n % 64]
  else [0xF0 + n / 262144, 0x80 + n / 4096 % 64, 0x80 + n / 64 % 64, 0x80 + n % 64]

/-- Model of `str.encode("utf-8")`. -/
def utf8Encode (s : String) : List Nat :=
  (s.data.map (fun c => utf8EncodeChar c.toNat)).flatten

mutual

/-- Decode a byte stream to scalar values (strict UTF-8). -/
def utf8DecodeScalars : List Nat → Option (List Nat)
  | [] => some []
  | b :: rest =>
      if b < 0x80 then (utf8DecodeScalars rest).map (fun ns => b :: ns)
      else if b < 0xC2 then Option.none
      else if b < 0xE0 then utf8Dec2 b rest
      else if b < 0xF0 then utf8Dec3 b rest
      else if b < 0xF5 then utf8Dec4 b rest
      else Option.none

/-- Continuation of a two-byte UTF-8 sequence. -/
def utf8Dec2 (b : Nat) : List Nat → Option (List Nat)
  | c1 :: rest2 =>
      if 0x80 ≤ c1 ∧ c1 < 0xC0 then
        (utf8DecodeScalars rest2).map (fun ns => ((b - 0xC0) * 64 + (c1 - 0x80)) :: ns)
      else Option.none
  | [] => Option.none

/-- Continuation of a three-byte UTF-8 sequence (with overlong and
surrogate rejection). -/
def utf8Dec3 (b : Nat) : List Nat → Option (List Nat)
  | c1 :: c2 :: rest2 =>
      if 0x80 <= c1 ∧ c1 < 0xC0 ∧ 0x80 ≤ c2 ∧ c2 < 0xC0 then
        if 0x800 ≤ (b - 0xE0) * 4096 + (c1 - 0x80) * 64 + (c2 - 0x80) ∧
            ((b - 0xE0) * 4096 + (c1 - 0x80) * 64 + (c2 - 0x80) < 0xD800 ∨
              0xE000 ≤ (b - 0xE0) * 4096 + (c1 - 0x80) * 64 + (c2 - 0x80)) then
          (utf8DecodeScalars rest2).map
            (fun ns => ((b - 0xE0) * 4096 + (c1 - 0x80) * 64 + (c2 - 0x80)) :: ns)
        else Option.none
      else Option.none
  | _ => Option.none

/-- Continuation of a four-byte UTF-8 sequence (with overlong and range
rejection). -/
def utf8Dec4 (b : Nat) : List Nat → Option (List Nat)
  | c1 :: c2 :: c3 :: rest2 =>
      if 0x80 ≤ c1 ∧ c1 < 0xC0 ∧ 0x80 ≤ c2 ∧ c2 < 0xC0 ∧ 0x80 ≤ c3 ∧ c3 < 0xC0 then
        if 0x10000 ≤ (b - 0xF0) * 262144 + (c1 - 0x80) * 4096 + (c2 - 0x80) * 64 + (c3 - 0x80) ∧
            (b - 0xF0) * 262144 + (c1 - 0x80) * 4096 + (c2 - 0x80) * 64 + (c3 - 0x80) < 0x110000 then
          (utf8DecodeScalars rest2).map
            (fun ns => ((b - 0xF0) * 262144 + (c1 - 0x80) * 4096 + (c2 - 0x80) * 64 + (c3 - 0x80)) :: ns)
        else Option.none
      else Option.none
  | _ => Option.none

end

/-- Model of `bytes.decode("utf-8")` (strict): `UnicodeDecodeError` on
invalid input. -/
def utf8DecodePy (bs : List Nat) : Except PyErr String :=
  match utf8DecodeScalars bs with
  | some ns => .ok (String.mk (ns.map Char.ofNat))
  | Option.none => .error .unicodeDecodeError

/-- Value of a hexadecimal digit character. -/
def hexVal (c : Char) : Option Nat :=
  if '0' ≤ c ∧ c ≤ '9' then some (c.toNat - 48)
  else if 'a' ≤ c ∧ c ≤ 'f' then some (c.toNat - 87)
  else if 'A' ≤ c ∧ c ≤ 'F' then some (c.toNat - 55)
  else Option.none

/-- Lowercase hexadecimal digit character for a value below 16. -/
def hexDigitChar (n : Nat) : Char := "0123456789abcdef".data.getD n '0'

/-- JSON whitespace as accepted by `json.loads`. -/
def isJsonWs (c : Char) : Bool := c == ' ' || c == '\t' || c == '\n' || c == '\r'

/-- Drop leading JSON whitespace. -/
def skipWs (cs : List Char) : List Char := cs.dropWhile isJsonWs

/-- Lookahead after a high surrogate escape: the value of a low
surrogate escape standing next in the input, when `json.loads` would
combine the pair. -/
def lowSurVal : List Char → Option Nat
  | '\\' :: 'u' :: k1 :: k2 :: k3 :: k4 :: _ =>
      match hexVal k1, hexVal k2, hexVal k3, hexVal k4 with
      | some a2, some b2, some c3, some d2 =>
          if 0xDC00 ≤ a2 * 4096 + b2 * 256 + c3 * 16 + d2 ∧
              a2 * 4096 + b2 * 256 + c3 * 16 + d2 < 0xE000 then
            some (a2 * 4096 + b2 * 256 + c3 * 16 + d2)
          else Option.none
      | _, _, _, _ => Option.none
  | _ => Option.none

/-- True when the input starts with a backslash-u escape whose four
following characters are missing or not all hex digits: while deciding
whether to combine a surrogate pair, `json.loads` decodes that escape
and raises there. -/
def lowSurBad : List Char → Bool
  | '\\' :: 'u' :: k1 :: k2 :: k3 :: k4 :: _ =>
      (hexVal k1).isNone || (hexVal k2).isNone || (hexVal k3).isNone || (hexVal k4).isNone
  | '\\' :: 'u' :: _ => true
  | _ => false

/-!
Body of a JSON string literal, after the opening quote: returns the
decoded characters and the input remaining after the closing quote.
Escapes follow `json.loads` (strict mode): the named escapes, `\uXXXX`
with surrogate-pair combination, and unescaped control characters are
rejected.  A lone surrogate escape is kept by Python as a lone surrogate
in the `str`; Lean strings hold scalar values only, so the model
substitutes U+FFFD for it — this preserves exactly where parsing
succeeds and the resulting string length and non-emptiness, which is all
the verified behaviour depends on (a successfully decoded verifier is
only ever tested for truthiness before the network call, which is
modelled by the provider oracle).
-/
mutual

/-- Decode the body of a JSON string literal up to the closing quote. -/
def parseJStringBody : List Char → Option (List Char × List Char)
  | [] => Option.none
  | c :: rest =>
      if c = '"' then some ([], rest)
      else if c = '\\' then parseJEscape rest
      else if c.toNat < 0x20 then Option.none
      else (parseJStringBody rest).map (fun p => (c :: p.1, p.2))

/-- Decode one escape sequence after a backslash. -/
def parseJEscape : List Char → Option (List Char × List Char)
  | [] => Option.none
  | e :: rest2 =>
      if e = '"' then (parseJStringBody rest2).map (fun p => ('"' :: p.1, p.2))
      else if e = '\\' then (parseJStringBody rest2).map (fun p => ('\\' :: p.1, p.2))
      else if e = '/' then (parseJStringBody rest2).map (fun p => ('/' :: p.1, p.2))
      else if e = 'b' then (parseJStringBody rest2).map (fun p => ('\x08' :: p.1, p.2))
      else if e = 'f' then (parseJStringBody rest2).map (fun p => ('\x0c' :: p.1, p.2))
      else if e = 'n' then (parseJStringBody rest2).map (fun p => ('\n' :: p.1, p.2))
      else if e = 'r' then (parseJStringBody rest2).map (fun p => ('\x0d' :: p.1, p.2))
      else if e = 't' then (parseJStringBody rest2).map (fun p => ('\t' :: p.1, p.2))
      else if e = 'u' then parseJUnicode rest2
      else Option.none

/-- Decode the four hex digits of a `\uXXXX` escape.  A scalar value is
taken directly; a high surrogate combines with an immediately following
low surrogate escape; a lone surrogate (high not followed by a low
escape, or low alone) is Python-accepted and represented by U+FFFD, with
parsing continuing on the rest of the body so a non-combining escape is
decoded again on its own, as in CPython; a malformed backslash-u after a
high surrogate fails, because the lookahead decode raises. -/
def parseJUnicode : List Char → Option (List Char × List Char)
  | h1 :: h2 :: h3 :: h4 :: rest3 =>
      match hexVal h1, hexVal h2, hexVal h3, hexVal h4 with
      | some a, some b, some c2, some d =>
          if a * 4096 + b * 256 + c2 * 16 + d < 0xD800 ∨
              0xE000 ≤ a * 4096 + b * 256 + c2 * 16 + d then
            (parseJStringBody rest3).map
              (fun p => (Char.ofNat (a * 4096 + b * 256 + c2 * 16 + d) :: p.1, p.2))
          else if a * 4096 + b * 256 + c2 * 16 + d < 0xDC00 then
            match lowSurVal rest3 with
            | some lo =>
                parseJSurPair (0x10000 +
                  (a * 4096 + b * 256 + c2 * 16 + d - 0xD800) * 1024 +
                  (lo - 0xDC00)) rest3
            | Option.none =>
                if lowSurBad rest3 then Option.none
                else (parseJStringBody rest3).map (fun p => (Char.ofNat 0xFFFD :: p.1, p.2))
          else
            (parseJStringBody rest3).map (fun p => (Char.ofNat 0xFFFD :: p.1, p.2))
      | _, _, _, _ => Option.none
  | _ => Option.none

/-- Continue after a combined surrogate pair: consume the six characters
of the low escape (already validated by lowSurVal) and prepend the
combined scalar. -/
def parseJSurPair (scalar : Nat) : List Char → Option (List Char × List Char)
  | _ :: _ :: _ :: _ :: _ :: _ :: rest4 =>
      (parseJStringBody rest4).map (fun p => (Char.ofNat scalar :: p.1, p.2))
  | _ => Option.none

end

/-- JSON number parsing.  Integers become `PyVal.int`; a number with a
fraction or exponent part becomes a Python float, carried as its source
token (`PyVal.floatRaw`).  The integer part must be a single `0` or
start with a nonzero digit, as in the JSON grammar (`json.loads` rejects
leading zeros). -/
def parseJNumber (cs : List Char) : Option (PyVal × List Char) :=
  let sign : List Char × List Char :=
    match cs with
    | '-' :: r => (['-'], r)
    | _ => ([], cs)
  let ds := sign.2.takeWhile (fun c => c.isDigit)
  let cs2 := sign.2.drop ds.length
  if ds.isEmpty then Option.none
  else if 2 ≤ ds.length ∧ ds.head? = some '0' then Option.none
  else
    let frac : List Char × List Char :=
      match cs2 with
      | '.' :: r =>
          let fs := r.takeWhile (fun c => c.isDigit)
          if fs.isEmpty then ([], cs2) else ('.' :: fs, r.drop fs.length)
      | _ => ([], cs2)
    let expp : List Char × List Char :=
      match frac.2 with
      | e :: r =>
          if e = 'e' ∨ e = 'E' then
            let sgn2 : List Char × List Char :=
              match r with
              | '+' :: rr => (['+'], rr)
              | '-' :: rr => (['-'], rr)
              | _ => ([], r)
            let es := sgn2.2.takeWhile (fun c => c.isDigit)
            if es.isEmpty then ([], frac.2)
            else (e :: sgn2.1 ++ es, sgn2.2.drop es.length)
          else ([], frac.2)
      | [] => ([], frac.2)
    if frac.1.isEmpty ∧ expp.1.isEmpty then
      some (.int (if sign.1.isEmpty then (digitsToNat ds : Int) else -(digitsToNat ds : Int)), cs2)
    else some (.floatRaw (String.mk (sign.1 ++ ds ++ frac.1 ++ expp.1)), expp.2)

/-- Value fallback of the JSON grammar: the `NaN`, `Infinity` and
`-Infinity` constants (accepted by `json.loads` by default, as floats),
otherwise a number. -/
def parseJConst : List Char → Option (PyVal × List Char)
  | 'N' :: 'a' :: 'N' :: rest => some (.floatRaw "nan", rest)
  | 'I' :: 'n' :: 'f' :: 'i' :: 'n' :: 'i' :: 't' :: 'y' :: rest =>
      some (.floatRaw "inf", rest)
  | '-' :: 'I' :: 'n' :: 'f' :: 'i' :: 'n' :: 'i' :: 't' :: 'y' :: rest =>
      some (.floatRaw "-inf", rest)
  | cs => parseJNumber cs

/-- Insert-or-replace on an association list, keeping the original
position of a replaced key, as Python dict assignment does. -/
def upsert : List (String × PyVal) → String → PyVal → List (String × PyVal)
  | [], k, v => [(k, v)]
  | (k0, v0) :: rest, k, v =>
      if k0 = k then (k0, v) :: rest else (k0, v0) :: upsert rest k v

mutual

/-- Recursive-descent JSON value parser modelling `json.loads`, with fuel
bounding the nesting depth (each recursive step into a composite value
consumes one unit; `jsonParse` supplies more fuel than any input can
need — the CPython recursion limit, a resource bound of about a thousand
nesting levels, is not modelled).  The `NaN`/`Infinity`/`-Infinity`
constants are accepted as floats, as `json.loads` does by default. -/
def parseJValue : Nat → List Char → Option (PyVal × List Char)
  | 0, _ => Option.none
  | fuel + 1, cs =>
      match skipWs cs with
      | 'n' :: 'u' :: 'l' :: 'l' :: rest => some (.none, rest)
      | 't' :: 'r' :: 'u' :: 'e' :: rest => some (.bool true, rest)
      | 'f' :: 'a' :: 'l' :: 's' :: 'e' :: rest => some (.bool false, rest)
      | '"' :: rest => (parseJStringBody rest).map (fun p => (.str (String.mk p.1), p.2))
      | '[' :: rest => (parseJElems fuel (skipWs rest)).map (fun p => (.list p.1, p.2))
      | '\x7b' :: rest =>
          (parseJMembers fuel (skipWs rest)).map
            (fun p => (.dict (p.1.foldl (fun acc kv => upsert acc kv.1 kv.2) []), p.2))
      | cs2 => parseJConst cs2

/-- Elements of a JSON array, after the opening bracket (whitespace
already skipped).  A trailing comma before the closing bracket is
rejected, as `json.loads` rejects it. -/
def parseJElems : Nat → List Char → Option (List PyVal × List Char)
  | 0, _ => Option.none
  | fuel + 1, cs =>
      match cs with
      | ']' :: rest => some ([], rest)
      | _ =>
          match parseJValue fuel cs with
          | some (v, rest) =>
              match skipWs rest with
              | ',' :: rest2 =>
                  match skipWs rest2 with
                  | ']' :: _ => Option.none
                  | cs3 => (parseJElems fuel cs3).map (fun p => (v :: p.1, p.2))
              | ']' :: rest2 => some ([v], rest2)
              | _ => Option.none
          | Option.none => Option.none

/-- Members of a JSON object, after the opening brace (whitespace already
skipped).  A trailing comma before the closing brace is rejected, as
`json.loads` rejects it. -/
def parseJMembers : Nat → List Char → Option (List (String × PyVal) × List Char)
  | 0, _ => Option.none
  | fuel + 1, cs =>
      match cs with
      | '\x7d' :: rest => some ([], rest)
      | '"' :: rest =>
          match parseJStringBody rest with
          | some (kcs, rest2) =>
              match skipWs rest2 with
              | ':' :: rest3 =>
                  match parseJValue fuel (skipWs rest3) with
                  | some (v, rest4) =>
                      match skipWs rest4 with
                      | ',' :: rest5 =>
                          match skipWs rest5 with
                          | '\x7d' :: _ => Option.none
                          | cs6 =>
                              (parseJMembers fuel cs6).map
                                (fun p => ((String.mk kcs, v) :: p.1, p.2))
                      | '\x7d' :: rest5 => some ([(String.mk kcs, v)], rest5)
                      | _ => Option.none
                  | Option.none => Option.none
              | _ => Option.none
          | Option.none => Option.none
      | _ => Option.none

end

/-- Model of `json.loads`: parse one value, require only whitespace after
it. -/
def jsonParse (s : String) : Option PyVal :=
  match parseJValue (s.length + 1) s.data with
  | some (v, rest) => if (skipWs rest).isEmpty then some v else Option.none
  | Option.none => Option.none

/-- Model of `json.loads` with its exception (`json.JSONDecodeError`). -/
def jsonLoadsPy (s : String) : Except PyErr PyVal :=
  match jsonParse s with
  | some v => .ok v
  | Option.none => .error .jsonDecodeError

/-- Decoded percent-sequences: a literal character, or a byte from a
valid `%XX` escape (invalid escapes stay literal, as in
`urllib.parse.unquote`). -/
def percentDecode : List Char → List (Sum Char Nat)
  | [] => []
  | '%' :: h1 :: h2 :: rest =>
      match hexVal h1, hexVal h2 with
      | some a, some b => Sum.inr (a * 16 + b) :: percentDecode rest
      | _, _ => Sum.inl '%' :: percentDecode (h1 :: h2 :: rest)
  | c :: rest => Sum.inl c :: percentDecode rest

/-- UTF-8 decoding with replacement: invalid bytes become U+FFFD, one per
undecodable byte (an approximation of the errors="replace" handler of
`str`, which replaces per maximal invalid subpart; no claim distinguishes
the two).  The fuel is the byte count. -/
def utf8ReplaceLoop : Nat → List Nat → List Char
  | 0, _ => []
  | _, [] => []
  | fuel + 1, b :: rest =>
      if b < 0x80 then Char.ofNat b :: utf8ReplaceLoop fuel rest
      else if 0xC2 ≤ b ∧ b < 0xE0 then
        match rest with
        | c1 :: rest2 =>
            if 0x80 ≤ c1 ∧ c1 < 0xC0 then
              Char.ofNat ((b - 0xC0) * 64 + (c1 - 0x80)) :: utf8ReplaceLoop fuel rest2
            else Char.ofNat 0xFFFD :: utf8ReplaceLoop fuel rest
        | [] => [Char.ofNat 0xFFFD]
      else if 0xE0 ≤ b ∧ b < 0xF0 then
        match rest with
        | c1 :: c2 :: rest2 =>
            if 0x80 ≤ c1 ∧ c1 < 0xC0 ∧ 0x80 ≤ c2 ∧ c2 < 0xC0 ∧
                0x800 ≤ (b - 0xE0) * 4096 + (c1 - 0x80) * 64 + (c2 - 0x80) ∧
                ((b - 0xE0) * 4096 + (c1 - 0x80) * 64 + (c2 - 0x80) < 0xD800 ∨
                  0xE000 ≤ (b - 0xE0) * 4096 + (c1 - 0x80) * 64 + (c2 - 0x80)) then
              Char.ofNat ((b - 0xE0) * 4096 + (c1 - 0x80) * 64 + (c2 - 0x80)) ::
                utf8ReplaceLoop fuel rest2
            else Char.ofNat 0xFFFD :: utf8ReplaceLoop fuel rest
        | _ => Char.ofNat 0xFFFD :: utf8ReplaceLoop fuel rest
      else if 0xF0 ≤ b ∧ b < 0xF5 then
        match rest with
        | c1 :: c2 :: c3 :: rest2 =>
            if 0x80 ≤ c1 ∧ c1 < 0xC0 ∧ 0x80 ≤ c2 ∧ c2 < 0xC0 ∧ 0x80 ≤ c3 ∧ c3 < 0xC0 ∧
                0x10000 ≤ (b - 0xF0) * 262144 + (c1 - 0x80) * 4096 + (c2 - 0x80) * 64 + (c3 - 0x80) ∧
                (b - 0xF0) * 262144 + (c1 - 0x80) * 4096 + (c2 - 0x80) * 64 + (c3 - 0x80) < 0x110000 then
              Char.ofNat ((b - 0xF0) * 262144 + (c1 - 0x80) * 4096 + (c2 - 0x80) * 64 + (c3 - 0x80)) ::
                utf8ReplaceLoop fuel rest2
            else Char.ofNat 0xFFFD :: utf8ReplaceLoop fuel rest
        | _ => Char.ofNat 0xFFFD :: utf8ReplaceLoop fuel rest
      else Char.ofNat 0xFFFD :: utf8ReplaceLoop fuel rest

/-- Longest leading run of decoded bytes. -/
def collectBytes : List (Sum Char Nat) → List Nat × List (Sum Char Nat)
  | Sum.inr b :: rest =>
      let p := collectBytes rest
      (b :: p.1, p.2)
  | xs => ([], xs)

/-- Reassembly loop for `unquote`: literal characters pass through, runs
of percent-decoded bytes are UTF-8 decoded with replacement. -/
def unquoteLoop : Nat → List (Sum Char Nat) → List Char
  | 0, _ => []
  | _, [] => []
  | fuel + 1, Sum.inl c :: rest => c :: unquoteLoop fuel rest
  | fuel + 1, Sum.inr b :: rest =>
      let run := collectBytes (Sum.inr b :: rest)
      utf8ReplaceLoop run.1.length run.1 ++ unquoteLoop fuel run.2

/-- Model of `urllib.parse.unquote` (note: it does not turn `+` into a
space). -/
def unquote (s : String) : String :=
  String.mk (unquoteLoop s.data.length (percentDecode s.data))

/-- Split a character list at the first `=`, as `param.split("=", 1)`
does after the `"=" in param` guard. -/
def breakAtEq : List Char → Option (List Char × List Char)
  | [] => Option.none
  | '=' :: rest => some ([], rest)
  | c :: rest => (breakAtEq rest).map (fun q => (c :: q.1, q.2))

/-- Insert-or-replace on a string association list (Python dict
assignment: duplicate query keys are last-write-wins). -/
def upsertStr : List (String × String) → String → String → List (String × String)
  | [], k, v => [(k, v)]
  | (k0, v0) :: rest, k, v =>
      if k0 = k then (k0, v) :: rest else (k0, v0) :: upsertStr rest k v

/-- Split a character list on a separator character, with the same
semantics as Python `str.split` on a one-character separator (adjacent
separators produce empty pieces). -/
def splitOnChar (sep : Char) : List Char → List (List Char)
  | [] => [[]]
  | c :: rest =>
      let r := splitOnChar sep rest
      if c = sep then [] :: r
      else
        match r with
        | h :: t => (c :: h) :: t
        | [] => [[c]]

/-- Pure core of `parse_query_string` on a string input: split on `&`,
skip pairs without `=`, split each at the first `=`, percent-decode key
and value. -/
def parseQueryPairs (qs : String) : List (String × String) :=
  if qs = "" then []
  else
    (splitOnChar '&' qs.data).foldl
      (fun params p =>
        match breakAtEq p with
        | some (k, v) => upsertStr params (unquote (String.mk k)) (unquote (String.mk v))
        | Option.none => params)
      []

/-- Model of `parse_query_string` from handler.py, at the Python level:
the querystring taken from the event may be any value; a truthy non-str
raises `AttributeError` at `querystring.split`. -/
def parse_query_string (querystring : PyVal) : Except PyErr (List (String × String)) :=
  if pyTruthy querystring then
    match querystring with
    | .str s => .ok (parseQueryPairs s)
    | _ => .error .attributeError
  else .ok []

/-- Truthiness of an `Optional[str]` (`params.get(...)` result). -/
def optStrTruthy : Option String → Bool
  | some s => s != ""
  | Option.none => false

/-- Constant from handler.py. -/
def DEFAULT_HOST : String := "localhost:5173"

/-- Constant from handler.py. -/
def DEFAULT_FRONTEND_URL : String := "http://localhost:5173"

/-- Constant from handler.py. -/
def OAUTH_CALLBACK_PATH : String := "/oauth/callback"

/-- Constant from handler.py. -/
def COOKIE_NAME : String := "google_oauth_access_token"

/-- Constant from handler.py: 7 days in seconds. -/
def COOKIE_MAX_AGE : Nat := 7 * 24 * 60 * 60

/-- Model of `str.lower()` (per-character lowering; the Unicode special
cases of Python `lower` do not arise for header names). -/
def pyLower (s : String) : String := String.mk (s.data.map Char.toLower)

/-- Model of `get_header_value` from handler.py.  The requested header
name is lowercased before the lookup; the stored key is used as-is. -/
def get_header_value (headers : PyVal) (header_name : String) (default : String) :
    Except PyErr PyVal := do
  let header_list ← pyGet headers (pyLower header_name) (.list [])
  if pyTruthy header_list then
    let n ← pyLen header_list
    if n > 0 then
      let h0 ← pySubscriptNat header_list 0
      pyGet h0 "value" (.str default)
    else pure (.str default)
  else pure (.str default)

/-- Configuration record returned by `get_config_from_headers` (a Python
dict with exactly these three keys). -/
structure OAuthConfig where
  client_id : PyVal
  client_secret : PyVal
  frontend_url : PyVal
deriving Repr

/-- Model of `get_config_from_headers` from handler.py. -/
def get_config_from_headers (headers : PyVal) : Except PyErr OAuthConfig := do
  let cid ← get_header_value headers "x-oauth-client-id" ""
  let csec ← get_header_value headers "x-oauth-client-secret" ""
  let fu ← get_header_value headers "x-oauth-frontend-url" DEFAULT_FRONTEND_URL
  pure ⟨cid, csec, fu⟩

/-- Uppercase hexadecimal digit character. -/
def hexUpperChar (n : Nat) : Char := "0123456789ABCDEF".data.getD n '0'

/-- Model of `urllib.parse.quote_plus` with empty `safe`, as used by
`urllib.parse.urlencode`. -/
def quotePlus (s : String) : String :=
  String.mk
    ((s.data.map (fun c =>
        if c.isAlphanum || c == '_' || c == '.' || c == '-' || c == '~' then [c]
        else if c == ' ' then ['+']
        else ((utf8EncodeChar c.toNat).map
          (fun b => ['%', hexUpperChar (b / 16), hexUpperChar (b % 16)])).flatten)).flatten)

/-- Model of `urllib.parse.urlencode` on the params dicts the handler
builds (string keys, arbitrary values passed through `str`). -/
def urlencode (params : List (String × PyVal)) : String :=
  String.intercalate "&" (params.map (fun kv => quotePlus kv.1 ++ "=" ++ quotePlus (pyStr kv.2)))

/-- Behaviour of the identity provider for one token-exchange POST, the
only network interaction of the handler: a 2xx response with body bytes,
a non-2xx response (`urllib.error.HTTPError`) with body bytes, or a
transport-level exception (timeout, DNS, connection reset — anything that
is not an `HTTPError`). -/
inductive ProviderBehavior where
  | success (body : List Nat)
  | httpError (body : List Nat)
  | netException
deriving Repr

/-- Model of `exchange_token` from handler.py, given the provider
behaviour.  The request-building half (urlencode of the POST fields)
cannot raise and does not influence the result, so the parameters are
carried only for signature fidelity. -/
def exchange_token (code : String) (code_verifier : PyVal) (redirect_uri : String)
    (client_id : PyVal) (client_secret : PyVal) (provider : ProviderBehavior) :
    Except PyErr PyVal :=
  match provider with
  | .success body =>
      match utf8DecodePy body with
      | .error _ => .ok (.dict [("error", .str "network_error")])
      | .ok s =>
          match jsonLoadsPy s with
          | .error _ => .ok (.dict [("error", .str "network_error")])
          | .ok j => .ok j
  | .httpError body =>
      match utf8DecodePy body with
      | .error e => .error e
      | .ok error_body =>
          match jsonLoadsPy error_body with
          | .error _ => .ok (.dict [("error", .str "token_exchange_failed")])
          | .ok error_data =>
              match pyGet error_data "error" (.str "token_exchange_failed") with
              | .error e => .error e
              | .ok v => .ok (.dict [("error", v)])
  | .netException => .ok (.dict [("error", .str "network_error")])

/-- Model of `create_redirect_response` from handler.py.  The `Secure`
cookie attribute line is commented out in the source and therefore absent
here. -/
def create_redirect_response (location : PyVal) (params : Option (List (String × PyVal)))
    (cookie_name : Option String) (cookie_value : Option PyVal) (cookie_max_age : Nat) : PyVal :=
  let locVal : PyVal :=
    match params with
    | some ps => if ps.isEmpty then location else .str (pyStr location ++ "?" ++ urlencode ps)
    | Option.none => location
  let baseHeaders : List (String × PyVal) :=
    [("location", .list [.dict [("key", .str "Location"), ("value", locVal)]]),
     ("cache-control", .list [.dict [("key", .str "Cache-Control"),
        ("value", .str "no-cache, no-store, must-revalidate")]])]
  let cookieTruthy : Bool :=
    (match cookie_name with
     | some n => n != ""
     | Option.none => false) &&
    (match cookie_value with
     | some v => pyTruthy v
     | Option.none => false)
  let hdrs :=
    if cookieTruthy then
      let cookie_string :=
        String.intercalate "; "
          [(cookie_name.getD "") ++ "=" ++ pyStr (cookie_value.getD .none),
           "Max-Age=" ++ toString cookie_max_age, "Path=/", "SameSite=Lax"]
      baseHeaders ++
        [("set-cookie", .list [.dict [("key", .str "Set-Cookie"), ("value", .str cookie_string)]])]
    else baseHeaders
  .dict [("status", .str "302"), ("statusDescription", .str "Found"), ("headers", .dict hdrs)]

/-- Scheme selection of handler.py line 131: `http` when the Host header
value contains `localhost` or `127.0.0.1` as a Python substring, `https`
otherwise; `in` on a non-string host raises `TypeError`. -/
def request_protocol (host : PyVal) : Except PyErr String := do
  let lh ← pyInStr "localhost" host
  let lo ← pyInStr "127.0.0.1" host
  pure (if lh || lo then "http" else "https")

/-- Reconstructed callback redirect URI of handler.py line 132. -/
def redirect_uri_of (host : PyVal) : Except PyErr String := do
  let protocol ← request_protocol host
  pure (protocol ++ "://" ++ pyStr host ++ OAUTH_CALLBACK_PATH)

/-- Outcome of the state-decoding block (handler.py lines 106-124): a
terminal error code for the redirect, or the extracted verifier. -/
inductive StateDecodeOutcome where
  | errorCode (code : String)
  | proceed (verifier : PyVal)
deriving BEq, Repr

/-- Model of the state-decoding block of `lambda_handler`:
`base64.b64decode(state).decode("utf-8")`, `json.loads`,
`state_data.get("verifier")`, falsy verifier check; every exception in
the block is caught and collapsed to `invalid_state`. -/
def decode_state (state : String) : StateDecodeOutcome :=
  match (do
      let bs ← b64decodePy state
      let state_json ← utf8DecodePy bs
      let state_data ← jsonLoadsPy state_json
      pyGet state_data "verifier" .none : Except PyErr PyVal) with
  | .error _ => .errorCode "invalid_state"
  | .ok code_verifier =>
      if pyTruthy code_verifier then .proceed code_verifier
      else .errorCode "no_verifier"

/-- Body of `lambda_handler` (the outer `try` block), with exceptions
propagating to the top-level handler. -/
def lambda_handler_body (event : PyVal) (provider : ProviderBehavior) : Except PyErr PyVal := do
  let records ← pySubscriptStr event "Records"
  let rec0 ← pySubscriptNat records 0
  let cf ← pySubscriptStr rec0 "cf"
  let request ← pySubscriptStr cf "request"
  let querystring ← pyGet request "querystring" (.str "")
  let params ← parse_query_string querystring
  let code := params.lookup "code"
  let state := params.lookup "state"
  let error := params.lookup "error"
  let headers ← pyGet request "headers" (.dict [])
  let config ← get_config_from_headers headers
  if optStrTruthy error then
    pure (create_redirect_response config.frontend_url
      (some [("oauth_error", .str (error.getD ""))]) Option.none Option.none COOKIE_MAX_AGE)
  else if !optStrTruthy code then
    pure (create_redirect_response config.frontend_url
      (some [("oauth_error", .str "no_code")]) Option.none Option.none COOKIE_MAX_AGE)
  else if !optStrTruthy state then
    pure (create_redirect_response config.frontend_url
      (some [("oauth_error", .str "no_state")]) Option.none Option.none COOKIE_MAX_AGE)
  else
    match decode_state (state.getD "") with
    | .errorCode c =>
        pure (create_redirect_response config.frontend_url
          (some [("oauth_error", .str c)]) Option.none Option.none COOKIE_MAX_AGE)
    | .proceed code_verifier => do
        let host ← get_header_value headers "host" DEFAULT_HOST
        let redirect_uri ← redirect_uri_of host
        let token_response ← exchange_token (code.getD "") code_verifier redirect_uri
          config.client_id config.client_secret provider
        let hasError ← pyInStr "error" token_response
        if hasError then do
          let error_msg ← pyGet token_response "error" (.str "token_exchange_failed")
          pure (create_redirect_response config.frontend_url
            (some [("oauth_error", error_msg)]) Option.none Option.none COOKIE_MAX_AGE)
        else do
          let access_token ← pyGet token_response "access_token" .none
          if !pyTruthy access_token then
            pure (create_redirect_response config.frontend_url
              (some [("oauth_error", .str "no_token")]) Option.none Option.none COOKIE_MAX_AGE)
          else
            pure (create_redirect_response config.frontend_url Option.none
              (some COOKIE_NAME) (some access_token) COOKIE_MAX_AGE)

/-- Recovery attempt of the top-level exception handler (handler.py lines
169-176): re-reads the headers and the config to find the frontend URL. -/
def recover_attempt (event : PyVal) : Except PyErr PyVal := do
  let records ← pySubscriptStr event "Records"
  let rec0 ← pySubscriptNat records 0
  let cf ← pySubscriptStr rec0 "cf"
  let request ← pySubscriptStr cf "request"
  let headers ← pyGet request "headers" (.dict [])
  let config ← get_config_from_headers headers
  pure config.frontend_url

/-- Model of `lambda_handler` from handler.py.  The top-level `except
Exception` catches everything from the body; inside that handler only
`(KeyError, IndexError, TypeError)` from the recovery attempt are caught,
so any other exception raised there propagates out of the function. -/
def lambda_handler (event : PyVal) (provider : ProviderBehavior) : Except PyErr PyVal :=
  match lambda_handler_body event provider with
  | .ok resp => .ok resp
  | .error _ =>
      match recover_attempt event with
      | .ok fu =>
          .ok (create_redirect_response fu
            (some [("oauth_error", .str "internal_error")]) Option.none Option.none COOKIE_MAX_AGE)
      | .error e =>
          if e = .keyError ∨ e = .indexError ∨ e = .typeError then
            .ok (create_redirect_response (.str DEFAULT_FRONTEND_URL)
              (some [("oauth_error", .str "internal_error")]) Option.none Option.none COOKIE_MAX_AGE)
          else .error e

/-- CloudFront origin-request event with the given raw querystring and
header map, shaped as `lambda_handler` documents it. -/
def mkEvent (querystring : String) (headers : PyVal) : PyVal :=
  .dict [("Records", .list [.dict [("cf", .dict [("request",
    .dict [("querystring", .str querystring), ("headers", headers)])])]])]

/-- First value of a response header list, in the CloudFront list-of-pairs
shape produced by `create_redirect_response`. -/
def respHeaderVal (resp : PyVal) (name : String) : Option PyVal :=
  match resp with
  | .dict kvs =>
      match kvs.lookup "headers" with
      | some (.dict hs) =>
          match hs.lookup name with
          | some (.list (.dict ekvs :: _)) => ekvs.lookup "value"
          | _ => Option.none
      | _ => Option.none
  | _ => Option.none

/-- Location header value of a response. -/
def respLocation (resp : PyVal) : Option PyVal := respHeaderVal resp "location"

/-- Set-Cookie header value of a response. -/
def respSetCookie (resp : PyVal) : Option PyVal := respHeaderVal resp "set-cookie"

/-- Whether a response carries a Set-Cookie header. -/
def hasSetCookie (resp : PyVal) : Bool := (respSetCookie resp).isSome

/-- JSON string-literal escaping for the state payload: quote, backslash
and control characters are escaped (control characters via `\u00XX`),
everything else is kept literal, as `JSON.stringify` does. -/
def escJsonChars : List Char → List Char
  | [] => []
  | c :: rest =>
      (if c = '"' then ['\\', '"']
       else if c = '\\' then ['\\', '\\']
       else if c.toNat < 0x20 then
         ['\\', 'u', '0', '0', hexDigitChar (c.toNat / 16), hexDigitChar (c.toNat % 16)]
       else [c]) ++ escJsonChars rest

/-- Serialized JSON text of the state payload object, in the
`base64(JSON(\x7bcsrf: xxx, verifier: xxx\x7d))` format documented at
server.py line 80. -/
def stringifyStateChars (csrf verifier : String) : List Char :=
  "\x7b\"csrf\": \"".data ++ escJsonChars csrf.data ++ "\", \"verifier\": \"".data ++
    escJsonChars verifier.data ++ "\"\x7d".data

/-- Modelled from the spec: the browser-side state encoder is not part of
this repository (only its decoders in handler.py and server.py are); per
the spec the state parameter is the base64 encoding of the JSON of
`\x7bcsrf: X, verifier: Y\x7d`. -/
def encodeState (csrf verifier : String) : String :=
  String.mk (b64encodeBytes (utf8Encode (String.mk (stringifyStateChars csrf verifier))))

/-- Whole header list of a response (the value of one key of the headers
dict), for stating that exactly one Set-Cookie entry is emitted. -/
def respHeaderList (resp : PyVal) (name : String) : Option PyVal :=
  match resp with
  | .dict kvs =>
      match kvs.lookup "headers" with
      | some (.dict hs) => hs.lookup name
      | _ => Option.none
  | _ => Option.none

/-- Monadic `pure` on `Except` is `Except.ok`. -/
@[simp] theorem except_pure_eq {α : Type} (a : α) :
    (pure a : Except PyErr α) = .ok a := rfl

/-- Bind on an `Except` success reduces to the continuation. -/
@[simp] theorem except_bind_ok {α β : Type} (a : α) (f : α → Except PyErr β) :
    (Except.ok a >>= f) = f a := rfl

/-- Bind on an `Except` failure propagates the failure. -/
@[simp] theorem except_bind_error {α β : Type} (e : PyErr) (f : α → Except PyErr β) :
    ((Except.error e : Except PyErr α) >>= f) = .error e := rfl

/-- On a string querystring, `parse_query_string` never raises and
returns the parsed pairs. -/
theorem parse_query_string_str (s : String) :
    parse_query_string (.str s) = .ok (parseQueryPairs s) := by
  by_cases h : s = ""
  · subst h
    simp [parse_query_string, pyTruthy, parseQueryPairs]
  · simp [parse_query_string, pyTruthy, h]

/-- C1: the claim says every provider failure mode resolves to a
TokenExchangeResult and no raw exception escapes `exchange_token`, with a
non-parseable non-2xx body mapped to `token_exchange_failed`.  The code
disagrees: `e.read().decode("utf-8")` sits outside the inner `try`, so a
non-2xx body that is not valid UTF-8 raises `UnicodeDecodeError` out of
the client (the inner `except` tuple even names `UnicodeDecodeError`,
where it is unreachable — evidence the author meant to catch it), and a
non-2xx body that parses to a JSON non-object raises `AttributeError`
at `error_data.get`.  This theorem evaluates the model at both failing
inputs. -/
theorem exchange_token_nonutf8_raises :
    exchange_token "authcode" (.str "verifier") "https://example.com/oauth/callback"
      (.str "client-id") (.str "client-secret") (.httpError [255]) =
      .error .unicodeDecodeError ∧
    exchange_token "authcode" (.str "verifier") "https://example.com/oauth/callback"
      (.str "client-id") (.str "client-secret") (.httpError (utf8Encode "[1]")) =
      .error .attributeError := ⟨rfl, rfl⟩

/-- C2: on a successful exchange the handler emits exactly one Set-Cookie
header with Max-Age 604800 (7 days), Path=/ and SameSite=Lax — but the
`Secure` attribute is never set (the line is commented out in
`create_redirect_response`), contradicting the claim that the production
variant sets Secure. -/
theorem cookie_attributes_no_secure :
    (lambda_handler
        (mkEvent "code=abc&state=eyJjc3JmIjogImMiLCAidmVyaWZpZXIiOiAidiJ9" (.dict []))
        (.success (utf8Encode "\x7b\"access_token\": \"tok\"\x7d"))).map
        (fun r => respHeaderList r "set-cookie") =
      .ok (some (.list [.dict [("key", .str "Set-Cookie"),
        ("value", .str "google_oauth_access_token=tok; Max-Age=604800; Path=/; SameSite=Lax")]])) ∧
    containsSub "Max-Age=604800"
      "google_oauth_access_token=tok; Max-Age=604800; Path=/; SameSite=Lax" = true ∧
    containsSub "Path=/"
      "google_oauth_access_token=tok; Max-Age=604800; Path=/; SameSite=Lax" = true ∧
    containsSub "SameSite=Lax"
      "google_oauth_access_token=tok; Max-Age=604800; Path=/; SameSite=Lax" = true ∧
    containsSub "Secure"
      "google_oauth_access_token=tok; Max-Age=604800; Path=/; SameSite=Lax" = false :=
  ⟨rfl, rfl, rfl, rfl, rfl⟩

/-- C7: the claim says the handler never lets an exception propagate for
any inbound event.  The code disagrees: for an event whose
`Records[0].cf.request` is not a dict, the body raises `AttributeError`
at `request.get`, and the top-level recovery re-derives the request and
calls `.get` on it again, raising a second `AttributeError` that is not
in the caught `(KeyError, IndexError, TypeError)` tuple and escapes the
handler. -/
theorem handler_recovery_raises :
    lambda_handler (.dict [("Records", .list [.dict [("cf", .dict [("request", .str "bogus")])]])])
      .netException = .error .attributeError := rfl

/-- C4 counterexample: the claim says a non-loopback host such as
`notlocalhost.example.com` must yield an https redirect URI, but the code
tests Python substring containment, and this host contains `localhost`,
so the scheme is http. -/
theorem protocol_substring_counterexample :
    request_protocol (.str "notlocalhost.example.com") = .ok "http" ∧
    redirect_uri_of (.str "notlocalhost.example.com") =
      .ok "http://notlocalhost.example.com/oauth/callback" := ⟨rfl, rfl⟩

/-- C4 amended: the scheme is `http` exactly when the Host header value
contains `localhost` or `127.0.0.1` as a substring (not only when the
host is a loopback address), and `https` otherwise. -/
theorem protocol_spec (host : String) :
    request_protocol (.str host) =
      .ok (if containsSub "localhost" host || containsSub "127.0.0.1" host
           then "http" else "https") ∧
    (request_protocol (.str host) = .ok "http" ↔
      (containsSub "localhost" host = true ∨ containsSub "127.0.0.1" host = true)) := by
  refine ⟨rfl, ?_⟩
  cases hl : containsSub "localhost" host <;>
    cases ho : containsSub "127.0.0.1" host <;>
      simp [request_protocol, pyInStr, hl, ho]

/-- C8 counterexample: the claim says header retrieval succeeds
regardless of the letter case under which the header is stored in the
map; but the lookup only lowercases the requested name, so a map that
stores the key as `Host` never matches and the default is returned. -/
theorem header_storedcase_counterexample :
    get_header_value
      (.dict [("Host", .list [.dict [("key", .str "Host"), ("value", .str "example.com")]])])
      "Host" "missing" = .ok (.str "missing") := rfl

/-- C8 amended: `get_header_value` is case-insensitive in the requested
header name (which is lowercased before the lookup), returns the first
entry value when the map stores the key in lowercase (as CloudFront
does), and the supplied default when the lowercased key is absent. -/
theorem get_header_value_spec :
    (∀ (headers : PyVal) (n1 n2 d : String), pyLower n1 = pyLower n2 →
        get_header_value headers n1 d = get_header_value headers n2 d) ∧
    (∀ (kvs : List (String × PyVal)) (name d : String) (ekvs : List (String × PyVal))
        (more : List PyVal) (v : PyVal),
        kvs.lookup (pyLower name) = some (.list (.dict ekvs :: more)) →
        ekvs.lookup "value" = some v →
        get_header_value (.dict kvs) name d = .ok v) ∧
    (∀ (kvs : List (String × PyVal)) (name d : String),
        kvs.lookup (pyLower name) = Option.none →
        get_header_value (.dict kvs) name d = .ok (.str d)) := by
  refine ⟨?_, ?_, ?_⟩
  · intro headers n1 n2 d h
    unfold get_header_value
    rw [h]
  · intro kvs name d ekvs more v hk hv
    simp [get_header_value, pyGet, hk, pyTruthy, pyLen, pySubscriptNat, hv]
  · intro kvs name d hk
    simp [get_header_value, pyGet, hk, pyTruthy]

/-- C8 witness: concrete instances discharging each hypothesis of the
amended header-lookup specification. -/
theorem get_header_value_spec_witness :
    pyLower "HOST" = pyLower "Host" ∧
    get_header_value
        (.dict [("host", .list [.dict [("key", .str "Host"), ("value", .str "h.example")]])])
        "HOST" "d" =
      get_header_value
        (.dict [("host", .list [.dict [("key", .str "Host"), ("value", .str "h.example")]])])
        "Host" "d" ∧
    get_header_value
        (.dict [("host", .list [.dict [("key", .str "Host"), ("value", .str "h.example")]])])
        "Host" "d" = .ok (.str "h.example") ∧
    get_header_value (.dict []) "host" "d" = .ok (.str "d") :=
  ⟨rfl,
   get_header_value_spec.1 _ "HOST" "Host" "d" rfl,
   get_header_value_spec.2.1 _ "Host" "d" _ [] _ rfl rfl,
   get_header_value_spec.2.2 [] "host" "d" rfl⟩

/-- C3 counterexample: the querystring `error=access_denied` contains no
`code` parameter, yet the result redirect carries
`oauth_error=access_denied` — not `oauth_error=no_code` as the claim
requires — because the provider-error check precedes the code check. -/
theorem no_code_counterexample :
    (lambda_handler (mkEvent "error=access_denied" (.dict [])) .netException).map respLocation =
      .ok (some (.str "http://localhost:5173?oauth_error=access_denied")) ∧
    (lambda_handler (mkEvent "error=access_denied" (.dict [])) .netException).map
        (fun r => (respLocation r).map (fun v => containsSub "no_code" (pyStr v))) =
      .ok (some false) ∧
    (lambda_handler (mkEvent "error=access_denied" (.dict [])) .netException).map hasSetCookie =
      .ok false := ⟨rfl, rfl, rfl⟩

/-- C3 amended: for every querystring whose parsed parameters contain
neither a truthy `error` nor a truthy `code`, and any header map from
which the configuration resolves, the handler's result is a redirect
whose query carries `oauth_error=no_code` and which has no Set-Cookie
header, regardless of the remaining parameters and of the provider. -/
theorem no_code_redirect (qs : String) (headers : PyVal) (cfg : OAuthConfig)
    (provider : ProviderBehavior)
    (hcfg : get_config_from_headers headers = .ok cfg)
    (herr : optStrTruthy ((parseQueryPairs qs).lookup "error") = false)
    (hcode : optStrTruthy ((parseQueryPairs qs).lookup "code") = false) :
    lambda_handler (mkEvent qs headers) provider =
      .ok (create_redirect_response cfg.frontend_url
        (some [("oauth_error", .str "no_code")]) Option.none Option.none COOKIE_MAX_AGE) ∧
    (lambda_handler (mkEvent qs headers) provider).map respLocation =
      .ok (some (.str (pyStr cfg.frontend_url ++ "?oauth_error=no_code"))) ∧
    (lambda_handler (mkEvent qs headers) provider).map hasSetCookie = .ok false := by
  have hbody : lambda_handler_body (mkEvent qs headers) provider =
      .ok (create_redirect_response cfg.frontend_url
        (some [("oauth_error", .str "no_code")]) Option.none Option.none COOKIE_MAX_AGE) := by
    simp [lambda_handler_body, mkEvent, pySubscriptStr, pySubscriptNat, pyGet,
      List.lookup, parse_query_string_str, hcfg, herr, hcode]
  have hmain : lambda_handler (mkEvent qs headers) provider =
      .ok (create_redirect_response cfg.frontend_url
        (some [("oauth_error", .str "no_code")]) Option.none Option.none COOKIE_MAX_AGE) := by
    simp [lambda_handler, hbody]
  refine ⟨hmain, ?_, ?_⟩
  · rw [hmain]
    have hassoc : pyStr cfg.frontend_url ++ "?" ++ urlencode [("oauth_error", .str "no_code")] =
        pyStr cfg.frontend_url ++ "?oauth_error=no_code" := by
      rw [String.append_assoc]
      rfl
    simp [create_redirect_response, respLocation, respHeaderVal, List.lookup, Except.map, hassoc]
  · rw [hmain]
    simp [create_redirect_response, hasSetCookie, respSetCookie, respHeaderVal,
      List.lookup, Except.map]

/-- C3 witness: a concrete querystring with a `state` parameter but no
`code` and no `error`, empty headers, default configuration. -/
theorem no_code_redirect_witness :
    get_config_from_headers (.dict []) =
      .ok ⟨.str "", .str "", .str DEFAULT_FRONTEND_URL⟩ ∧
    optStrTruthy ((parseQueryPairs "state=x").lookup "error") = false ∧
    optStrTruthy ((parseQueryPairs "state=x").lookup "code") = false ∧
    lambda_handler (mkEvent "state=x" (.dict [])) .netException =
      .ok (create_redirect_response (.str DEFAULT_FRONTEND_URL)
        (some [("oauth_error", .str "no_code")]) Option.none Option.none COOKIE_MAX_AGE) :=
  ⟨rfl, rfl, rfl,
   (no_code_redirect "state=x" (.dict []) ⟨.str "", .str "", .str DEFAULT_FRONTEND_URL⟩
     .netException rfl rfl rfl).1⟩

/-- C10: when the token exchange succeeds but `access_token` is the empty
string, the handler redirects with `oauth_error=no_token` and emits no
Set-Cookie; and in general `create_redirect_response` (whose cookie
arguments are `Optional[str]` per its signature) emits a Set-Cookie only
when both the cookie name and the cookie value are truthy — in
particular, whenever the emitted cookie value is a string it is
non-empty. -/
theorem empty_token_no_cookie :
    (∀ (qs : String) (headers : PyVal) (cfg : OAuthConfig) (st host bodyStr : String)
        (vv : PyVal) (body : List Nat),
        get_config_from_headers headers = .ok cfg →
        optStrTruthy ((parseQueryPairs qs).lookup "error") = false →
        optStrTruthy ((parseQueryPairs qs).lookup "code") = true →
        (parseQueryPairs qs).lookup "state" = some st →
        st ≠ "" →
        decode_state st = .proceed vv →
        get_header_value headers "host" DEFAULT_HOST = .ok (.str host) →
        utf8DecodePy body = .ok bodyStr →
        jsonLoadsPy bodyStr = .ok (.dict [("access_token", .str "")]) →
        lambda_handler (mkEvent qs headers) (.success body) =
          .ok (create_redirect_response cfg.frontend_url
            (some [("oauth_error", .str "no_token")]) Option.none Option.none COOKIE_MAX_AGE) ∧
        (lambda_handler (mkEvent qs headers) (.success body)).map hasSetCookie = .ok false) ∧
    (∀ (location : PyVal) (params : Option (List (String × PyVal)))
        (nm : Option String) (cv : Option PyVal) (age : Nat),
        hasSetCookie (create_redirect_response location params nm cv age) = true →
        (∃ n, nm = some n ∧ n ≠ "") ∧
        (∃ v, cv = some v ∧ pyTruthy v = true ∧ ∀ s, v = .str s → s ≠ "")) := by
  constructor
  · intro qs headers cfg st host bodyStr vv body hcfg herr hcode hstate hst hdec hhost hbody hjson
    have hsttr : optStrTruthy ((parseQueryPairs qs).lookup "state") = true := by
      simp [optStrTruthy, hstate, hst]
    have hbody2 : lambda_handler_body (mkEvent qs headers) (.success body) =
        .ok (create_redirect_response cfg.frontend_url
          (some [("oauth_error", .str "no_token")]) Option.none Option.none COOKIE_MAX_AGE) := by
      simp [lambda_handler_body, mkEvent, pySubscriptStr, pySubscriptNat, pyGet,
        List.lookup, parse_query_string_str, hcfg, herr, hcode, hsttr, hstate, hdec, hhost,
        redirect_uri_of, request_protocol, pyInStr, exchange_token, hbody, hjson,
        pyTruthy]
      intro h
      simp [optStrTruthy, hst] at h
    have hmain : lambda_handler (mkEvent qs headers) (.success body) =
        .ok (create_redirect_response cfg.frontend_url
          (some [("oauth_error", .str "no_token")]) Option.none Option.none COOKIE_MAX_AGE) := by
      simp [lambda_handler, hbody2]
    refine ⟨hmain, ?_⟩
    rw [hmain]
    simp [create_redirect_response, hasSetCookie, respSetCookie, respHeaderVal,
      List.lookup, Except.map]
  · intro location params nm cv age h
    cases nm with
    | none =>
        exfalso
        simp [create_redirect_response, hasSetCookie, respSetCookie, respHeaderVal,
          List.lookup] at h
    | some n =>
        cases cv with
        | none =>
            exfalso
            simp [create_redirect_response, hasSetCookie, respSetCookie, respHeaderVal,
              List.lookup] at h
        | some v =>
            by_cases hn : n = ""
            · exfalso
              subst hn
              simp [create_redirect_response, hasSetCookie, respSetCookie, respHeaderVal,
                List.lookup] at h
            · by_cases hv : pyTruthy v = true
              · refine ⟨⟨n, rfl, hn⟩, ⟨v, rfl, hv, ?_⟩⟩
                intro s hs
                subst hs
                simpa [pyTruthy] using hv
              · exfalso
                simp only [Bool.not_eq_true] at hv
                simp [create_redirect_response, hasSetCookie, respSetCookie, respHeaderVal,
                  List.lookup, hn, hv] at h

/-- C10 witness: a concrete flow in which the provider returns
`access_token` as the empty string (no cookie results), and a concrete
cookie emission whose value is the non-empty string `tok`. -/
theorem empty_token_no_cookie_witness :
    (lambda_handler
        (mkEvent "code=abc&state=eyJjc3JmIjogImMiLCAidmVyaWZpZXIiOiAidiJ9" (.dict []))
        (.success (utf8Encode "\x7b\"access_token\": \"\"\x7d"))).map hasSetCookie = .ok false ∧
    hasSetCookie (create_redirect_response (.str DEFAULT_FRONTEND_URL) Option.none
      (some COOKIE_NAME) (some (.str "tok")) COOKIE_MAX_AGE) = true ∧
    ((∃ n, (some COOKIE_NAME : Option String) = some n ∧ n ≠ "") ∧
     (∃ v, (some (PyVal.str "tok") : Option PyVal) = some v ∧ pyTruthy v = true ∧
        ∀ s, v = .str s → s ≠ "")) :=
  ⟨(empty_token_no_cookie.1 "code=abc&state=eyJjc3JmIjogImMiLCAidmVyaWZpZXIiOiAidiJ9"
      (.dict []) ⟨.str "", .str "", .str DEFAULT_FRONTEND_URL⟩
      "eyJjc3JmIjogImMiLCAidmVyaWZpZXIiOiAidiJ9" DEFAULT_HOST
      "\x7b\"access_token\": \"\"\x7d" (.str "v")
      (utf8Encode "\x7b\"access_token\": \"\"\x7d")
      rfl rfl rfl rfl (by decide) rfl rfl rfl rfl).2,
   rfl,
   empty_token_no_cookie.2 (.str DEFAULT_FRONTEND_URL) Option.none
     (some COOKIE_NAME) (some (.str "tok")) COOKIE_MAX_AGE rfl⟩

/-- C6: whenever the flow reaches the token exchange (no provider error
parameter, a truthy code, a state that decodes to a verifier, a resolved
configuration and a string host) and the provider answers 2xx with
`\x7b"access_token": "T"\x7d` for a non-empty `T`, the terminal response
redirects to the configured frontend URL unchanged (so its query carries
no `oauth_error` parameter when the frontend URL itself carries none) and
its Set-Cookie value is exactly
`google_oauth_access_token=T; Max-Age=604800; Path=/; SameSite=Lax`. -/
theorem success_cookie_spec (qs : String) (headers : PyVal) (cfg : OAuthConfig)
    (st host bodyStr T : String) (vv : PyVal) (body : List Nat)
    (hcfg : get_config_from_headers headers = .ok cfg)
    (herr : optStrTruthy ((parseQueryPairs qs).lookup "error") = false)
    (hcode : optStrTruthy ((parseQueryPairs qs).lookup "code") = true)
    (hstate : (parseQueryPairs qs).lookup "state" = some st)
    (hst : st ≠ "")
    (hdec : decode_state st = .proceed vv)
    (hhost : get_header_value headers "host" DEFAULT_HOST = .ok (.str host))
    (hbody : utf8DecodePy body = .ok bodyStr)
    (hjson : jsonLoadsPy bodyStr = .ok (.dict [("access_token", .str T)]))
    (hT : T ≠ "")
    (hfu : containsSub "oauth_error" (pyStr cfg.frontend_url) = false) :
    lambda_handler (mkEvent qs headers) (.success body) =
      .ok (create_redirect_response cfg.frontend_url Option.none
        (some COOKIE_NAME) (some (.str T)) COOKIE_MAX_AGE) ∧
    (lambda_handler (mkEvent qs headers) (.success body)).map respSetCookie =
      .ok (some (.str ("google_oauth_access_token=" ++ T ++
        "; Max-Age=604800; Path=/; SameSite=Lax"))) ∧
    (lambda_handler (mkEvent qs headers) (.success body)).map respLocation =
      .ok (some cfg.frontend_url) ∧
    (lambda_handler (mkEvent qs headers) (.success body)).map
        (fun r => (respLocation r).map (fun v => containsSub "oauth_error" (pyStr v))) =
      .ok (some false) := by
  have hsttr : optStrTruthy ((parseQueryPairs qs).lookup "state") = true := by
    simp [optStrTruthy, hstate, hst]
  have hTtr : pyTruthy (.str T) = true := by
    simp [pyTruthy, hT]
  have hbody2 : lambda_handler_body (mkEvent qs headers) (.success body) =
      .ok (create_redirect_response cfg.frontend_url Option.none
        (some COOKIE_NAME) (some (.str T)) COOKIE_MAX_AGE) := by
    simp [lambda_handler_body, mkEvent, pySubscriptStr, pySubscriptNat, pyGet,
      List.lookup, parse_query_string_str, hcfg, herr, hcode, hsttr, hstate, hdec, hhost,
      redirect_uri_of, request_protocol, pyInStr, exchange_token, hbody, hjson, hTtr]
    intro h
    simp [optStrTruthy, hst] at h
  have hmain : lambda_handler (mkEvent qs headers) (.success body) =
      .ok (create_redirect_response cfg.frontend_url Option.none
        (some COOKIE_NAME) (some (.str T)) COOKIE_MAX_AGE) := by
    simp [lambda_handler, hbody2]
  have hstr : String.intercalate "; "
      ["google_oauth_access_token=" ++ T, "Max-Age=" ++ toString COOKIE_MAX_AGE,
        "Path=/", "SameSite=Lax"] =
      "google_oauth_access_token=" ++ T ++ "; Max-Age=604800; Path=/; SameSite=Lax" := by
    show (((((("google_oauth_access_token=" ++ T) ++ "; ") ++ "Max-Age=604800") ++ "; ") ++
        "Path=/") ++ "; ") ++ "SameSite=Lax" =
      ("google_oauth_access_token=" ++ T) ++ "; Max-Age=604800; Path=/; SameSite=Lax"
    simp only [String.append_assoc]
    rfl
  refine ⟨hmain, ?_, ?_, ?_⟩
  · rw [hmain]
    simp [create_redirect_response, respSetCookie, respHeaderVal, List.lookup,
      Except.map, hTtr, COOKIE_NAME, pyStr, hstr]
  · rw [hmain]
    simp [create_redirect_response, respLocation, respHeaderVal, List.lookup,
      Except.map, hTtr, COOKIE_NAME]
  · rw [hmain]
    simp [create_redirect_response, respLocation, respHeaderVal, List.lookup,
      Except.map, hTtr, COOKIE_NAME, hfu]

/-- C6 witness: the concrete success flow with verifier `v` and token
`tok` on default development configuration. -/
theorem success_cookie_spec_witness :
    lambda_handler
        (mkEvent "code=abc&state=eyJjc3JmIjogImMiLCAidmVyaWZpZXIiOiAidiJ9" (.dict []))
        (.success (utf8Encode "\x7b\"access_token\": \"tok\"\x7d")) =
      .ok (create_redirect_response (.str DEFAULT_FRONTEND_URL) Option.none
        (some COOKIE_NAME) (some (.str "tok")) COOKIE_MAX_AGE) ∧
    (lambda_handler
        (mkEvent "code=abc&state=eyJjc3JmIjogImMiLCAidmVyaWZpZXIiOiAidiJ9" (.dict []))
        (.success (utf8Encode "\x7b\"access_token\": \"tok\"\x7d"))).map respSetCookie =
      .ok (some (.str ("google_oauth_access_token=" ++ "tok" ++
        "; Max-Age=604800; Path=/; SameSite=Lax"))) :=
  ⟨(success_cookie_spec "code=abc&state=eyJjc3JmIjogImMiLCAidmVyaWZpZXIiOiAidiJ9"
      (.dict []) ⟨.str "", .str "", .str DEFAULT_FRONTEND_URL⟩
      "eyJjc3JmIjogImMiLCAidmVyaWZpZXIiOiAidiJ9" DEFAULT_HOST
      "\x7b\"access_token\": \"tok\"\x7d" "tok" (.str "v")
      (utf8Encode "\x7b\"access_token\": \"tok\"\x7d")
      rfl rfl rfl rfl (by decide) rfl rfl rfl rfl (by decide) rfl).1,
   (success_cookie_spec "code=abc&state=eyJjc3JmIjogImMiLCAidmVyaWZpZXIiOiAidiJ9"
      (.dict []) ⟨.str "", .str "", .str DEFAULT_FRONTEND_URL⟩
      "eyJjc3JmIjogImMiLCAidmVyaWZpZXIiOiAidiJ9" DEFAULT_HOST
      "\x7b\"access_token\": \"tok\"\x7d" "tok" (.str "v")
      (utf8Encode "\x7b\"access_token\": \"tok\"\x7d")
      rfl rfl rfl rfl (by decide) rfl rfl rfl rfl (by decide) rfl).2.1⟩

/-- Reading back a 6-bit value from its base64 character. -/
theorem fromB64_toB64 : ∀ n < 64, fromB64 (toB64 n) = some n := by decide

/-- A base64 character is never the padding character. -/
theorem toB64_ne_pad : ∀ n < 64, ¬ toB64 n = '=' := by decide

/-- A base64 character is ASCII. -/
theorem toB64_ascii : ∀ n < 64, (toB64 n).toNat < 128 := by decide

/-- Every character of an encoded base64 string is ASCII. -/
theorem b64encode_ascii (bs : List Nat) (hb : ∀ b ∈ bs, b < 256) :
    ∀ c ∈ b64encodeBytes bs, c.toNat < 128 := by
  induction bs using b64encodeBytes.induct with
  | case1 => simp [b64encodeBytes]
  | case2 x =>
      have hx := hb x (by simp)
      intro c hc
      simp only [b64encodeBytes, List.mem_cons, List.mem_singleton] at hc
      rcases hc with rfl | rfl | rfl | h
      · exact toB64_ascii _ (by omega)
      · exact toB64_ascii _ (by omega)
      · decide
      · simp at h
        subst h
        decide
  | case3 x y =>
      have hx := hb x (by simp)
      have hy := hb y (by simp)
      intro c hc
      simp only [b64encodeBytes, List.mem_cons, List.mem_singleton] at hc
      rcases hc with rfl | rfl | rfl | h
      · exact toB64_ascii _ (by omega)
      · exact toB64_ascii _ (by omega)
      · exact toB64_ascii _ (by omega)
      · simp at h
        subst h
        decide
  | case4 x y z rest ih =>
      have hx := hb x (by simp)
      have hy := hb y (by simp)
      have hz := hb z (by simp)
      intro c hc
      simp only [b64encodeBytes, List.mem_cons] at hc
      rcases hc with rfl | rfl | rfl | rfl | h
      · exact toB64_ascii _ (by omega)
      · exact toB64_ascii _ (by omega)
      · exact toB64_ascii _ (by omega)
      · exact toB64_ascii _ (by omega)
      · exact ih (fun b hbm => hb b (by simp [hbm])) c h

/-- The lenient decode loop inverts the encoder on genuine bytes,
starting (and, after every full quantum, continuing) in the initial
state. -/
theorem b64decodeLoop_encode (bs : List Nat) (hb : ∀ b ∈ bs, b < 256) :
    b64decodeLoop (b64encodeBytes bs) 0 0 0 = some bs := by
  induction bs using b64encodeBytes.induct with
  | case1 => rfl
  | case2 x =>
      have hx := hb x (by simp)
      have h1 := fromB64_toB64 (x / 4) (by omega)
      have h2 := fromB64_toB64 (x % 4 * 16) (by omega)
      have hne1 := toB64_ne_pad (x / 4) (by omega)
      have hne2 := toB64_ne_pad (x % 4 * 16) (by omega)
      simp only [b64encodeBytes]
      simp [b64decodeLoop, if_neg hne1, if_neg hne2, h1, h2]
      omega
  | case3 x y =>
      have hx := hb x (by simp)
      have hy := hb y (by simp)
      have h1 := fromB64_toB64 (x / 4) (by omega)
      have h2 := fromB64_toB64 (x % 4 * 16 + y / 16) (by omega)
      have h3 := fromB64_toB64 (y % 16 * 4) (by omega)
      have hne1 := toB64_ne_pad (x / 4) (by omega)
      have hne2 := toB64_ne_pad (x % 4 * 16 + y / 16) (by omega)
      have hne3 := toB64_ne_pad (y % 16 * 4) (by omega)
      simp only [b64encodeBytes]
      simp [b64decodeLoop, if_neg hne1, if_neg hne2, if_neg hne3, h1, h2, h3]
      omega
  | case4 x y z rest ih =>
      have hx := hb x (by simp)
      have hy := hb y (by simp)
      have hz := hb z (by simp)
      have h1 := fromB64_toB64 (x / 4) (by omega)
      have h2 := fromB64_toB64 (x % 4 * 16 + y / 16) (by omega)
      have h3 := fromB64_toB64 (y % 16 * 4 + z / 64) (by omega)
      have h4 := fromB64_toB64 (z % 64) (by omega)
      have hne1 := toB64_ne_pad (x / 4) (by omega)
      have hne2 := toB64_ne_pad (x % 4 * 16 + y / 16) (by omega)
      have hne3 := toB64_ne_pad (y % 16 * 4 + z / 64) (by omega)
      have hne4 := toB64_ne_pad (z % 64) (by omega)
      have ihh := ih (fun b hbm => hb b (by simp [hbm]))
      simp only [b64encodeBytes]
      simp [b64decodeLoop, if_neg hne1, if_neg hne2, if_neg hne3, if_neg hne4,
        h1, h2, h3, h4, ihh]
      omega

/-- Model of `base64.b64decode` inverts the encoder on genuine bytes. -/
theorem b64decodePy_encode (bs : List Nat) (hb : ∀ b ∈ bs, b < 256) :
    b64decodePy (String.mk (b64encodeBytes bs)) = .ok bs := by
  have hascii : (b64encodeBytes bs).any (fun c => decide (0x80 ≤ c.toNat)) = false := by
    rw [List.any_eq_false]
    intro c hc
    have := b64encode_ascii bs hb c hc
    simpa using by omega
  simp [b64decodePy, hascii, b64decodeLoop_encode bs hb]

/-- UTF-8 encoding of a code point below 0x110000 produces genuine
bytes. -/
theorem utf8EncodeChar_lt (n : Nat) (h : n < 0x110000) : ∀ b ∈ utf8EncodeChar n, b < 256 := by
  intro b hb
  unfold utf8EncodeChar at hb
  split_ifs at hb with h1 h2 h3
  · simp at hb
    omega
  · simp at hb
    rcases hb with rfl | rfl <;> omega
  · simp at hb
    rcases hb with rfl | rfl | rfl <;> omega
  · simp at hb
    rcases hb with rfl | rfl | rfl | rfl <;> omega

/-- All bytes of a UTF-8 encoded string are genuine bytes. -/
theorem utf8Encode_lt (s : String) : ∀ b ∈ utf8Encode s, b < 256 := by
  intro b hb
  simp only [utf8Encode, List.mem_flatten, List.mem_map] at hb
  obtain ⟨l, ⟨c, _, rfl⟩, hbl⟩ := hb
  have hv : c.toNat < 0xD800 ∨ (0xDFFF < c.toNat ∧ c.toNat < 0x110000) := c.valid
  exact utf8EncodeChar_lt c.toNat (by omega) b hbl

/-- Strict UTF-8 decoding undoes the encoding of one valid scalar
value at the head of the byte stream. -/
theorem utf8DecodeScalars_encodeChar (n : Nat)
    (hv : n < 0xD800 ∨ (0xDFFF < n ∧ n < 0x110000)) (rest : List Nat) :
    utf8DecodeScalars (utf8EncodeChar n ++ rest) =
      (utf8DecodeScalars rest).map (fun ns => n :: ns) := by
  by_cases h1 : n < 0x80
  · simp only [utf8EncodeChar, if_pos h1, List.cons_append, List.nil_append]
    simp [utf8DecodeScalars, h1]
  · by_cases h2 : n < 0x800
    · simp only [utf8EncodeChar, if_neg h1, if_pos h2, List.cons_append, List.nil_append]
      have c1 : ¬ (0xC0 + n / 64 < 0x80) := by omega
      have c2 : ¬ (0xC0 + n / 64 < 0xC2) := by omega
      have c3 : 0xC0 + n / 64 < 0xE0 := by omega
      have c4 : 0x80 ≤ 0x80 + n % 64 ∧ 0x80 + n % 64 < 0xC0 := by omega
      simp only [utf8DecodeScalars, if_neg c1, if_neg c2, if_pos c3]
      simp only [utf8Dec2, if_pos c4]
      have e : (0xC0 + n / 64 - 0xC0) * 64 + (0x80 + n % 64 - 0x80) = n := by omega
      rw [e]
    · by_cases h3 : n < 0x10000
      · simp only [utf8EncodeChar, if_neg h1, if_neg h2, if_pos h3, List.cons_append,
          List.nil_append]
        have c1 : ¬ (0xE0 + n / 4096 < 0x80) := by omega
        have c2 : ¬ (0xE0 + n / 4096 < 0xC2) := by omega
        have c3 : ¬ (0xE0 + n / 4096 < 0xE0) := by omega
        have c4 : 0xE0 + n / 4096 < 0xF0 := by omega
        have c5 : 0x80 ≤ 0x80 + n / 64 % 64 ∧ 0x80 + n / 64 % 64 < 0xC0 ∧
            0x80 ≤ 0x80 + n % 64 ∧ 0x80 + n % 64 < 0xC0 := by omega
        have e : (0xE0 + n / 4096 - 0xE0) * 4096 + (0x80 + n / 64 % 64 - 0x80) * 64 +
            (0x80 + n % 64 - 0x80) = n := by omega
        have c6 : 0x800 ≤ (0xE0 + n / 4096 - 0xE0) * 4096 + (0x80 + n / 64 % 64 - 0x80) * 64 +
            (0x80 + n % 64 - 0x80) ∧
            ((0xE0 + n / 4096 - 0xE0) * 4096 + (0x80 + n / 64 % 64 - 0x80) * 64 +
              (0x80 + n % 64 - 0x80) < 0xD800 ∨
             0xE000 ≤ (0xE0 + n / 4096 - 0xE0) * 4096 + (0x80 + n / 64 % 64 - 0x80) * 64 +
              (0x80 + n % 64 - 0x80)) := by
          rw [e]
          omega
        simp only [utf8DecodeScalars, if_neg c1, if_neg c2, if_neg c3, if_pos c4]
        simp only [utf8Dec3, if_pos c5, if_pos c6]
        rw [e]
      · have h4 : n < 0x110000 := by omega
        simp only [utf8EncodeChar, if_neg h1, if_neg h2, if_neg h3, List.cons_append,
          List.nil_append]
        have c1 : ¬ (0xF0 + n / 262144 < 0x80) := by omega
        have c2 : ¬ (0xF0 + n / 262144 < 0xC2) := by omega
        have c3 : ¬ (0xF0 + n / 262144 < 0xE0) := by omega
        have c4 : ¬ (0xF0 + n / 262144 < 0xF0) := by omega
        have c5 : 0xF0 + n / 262144 < 0xF5 := by omega
        have c6 : 0x80 ≤ 0x80 + n / 4096 % 64 ∧ 0x80 + n / 4096 % 64 < 0xC0 ∧
            0x80 ≤ 0x80 + n / 64 % 64 ∧ 0x80 + n / 64 % 64 < 0xC0 ∧
            0x80 ≤ 0x80 + n % 64 ∧ 0x80 + n % 64 < 0xC0 := by omega
        have e : (0xF0 + n / 262144 - 0xF0) * 262144 + (0x80 + n / 4096 % 64 - 0x80) * 4096 +
            (0x80 + n / 64 % 64 - 0x80) * 64 + (0x80 + n % 64 - 0x80) = n := by omega
        have c7 : 0x10000 ≤ (0xF0 + n / 262144 - 0xF0) * 262144 +
              (0x80 + n / 4096 % 64 - 0x80) * 4096 +
              (0x80 + n / 64 % 64 - 0x80) * 64 + (0x80 + n % 64 - 0x80) ∧
            (0xF0 + n / 262144 - 0xF0) * 262144 + (0x80 + n / 4096 % 64 - 0x80) * 4096 +
              (0x80 + n / 64 % 64 - 0x80) * 64 + (0x80 + n % 64 - 0x80) < 0x110000 := by
          rw [e]
          omega
        simp only [utf8DecodeScalars, if_neg c1, if_neg c2, if_neg c3, if_neg c4, if_pos c5]
        simp only [utf8Dec4, if_pos c6, if_pos c7]
        rw [e]

/-- Strict UTF-8 decoding undoes the encoding of a whole character
list. -/
theorem utf8DecodeScalars_encode (cs : List Char) :
    utf8DecodeScalars ((cs.map (fun c => utf8EncodeChar c.toNat)).flatten) =
      some (cs.map Char.toNat) := by
  induction cs with
  | nil => rfl
  | cons c cs ih =>
      have hv : c.toNat < 0xD800 ∨ (0xDFFF < c.toNat ∧ c.toNat < 0x110000) := c.valid
      simp [utf8DecodeScalars_encodeChar c.toNat hv, ih]

/-- Model of `bytes.decode("utf-8")` inverts the encoder. -/
theorem utf8DecodePy_encode (s : String) : utf8DecodePy (utf8Encode s) = .ok s := by
  simp only [utf8DecodePy, utf8Encode, utf8DecodeScalars_encode s.data]
  rw [List.map_map]
  have : s.data.map (Char.ofNat ∘ Char.toNat) = s.data := by
    simp [Function.comp_def, Char.ofNat_toNat]
  rw [this]

/-- Reading back a hex digit character recovers its value. -/
theorem hexVal_hexDigitChar : ∀ d < 16, hexVal (hexDigitChar d) = some d := by decide

/-- The JSON string-body parser inverts the payload escaping: decoding
the escaped characters followed by the closing quote yields exactly the
original characters and the remaining input. -/
theorem parseJStringBody_esc (cs : List Char) :
    ∀ rest : List Char, parseJStringBody (escJsonChars cs ++ '"' :: rest) = some (cs, rest) := by
  induction cs with
  | nil =>
      intro rest
      simp [escJsonChars, parseJStringBody]
  | cons c cs ih =>
      intro rest
      by_cases hq : c = '"'
      · subst hq
        simp only [escJsonChars, if_pos rfl, List.cons_append, List.nil_append]
        simp [parseJStringBody, parseJEscape, ih]
      · by_cases hb : c = '\\'
        · subst hb
          simp only [escJsonChars, List.cons_append, List.nil_append]
          simp [parseJStringBody, parseJEscape, ih]
        · by_cases hc : c.toNat < 0x20
          · have h3lt : c.toNat / 16 < 16 := by omega
            have h4lt : c.toNat % 16 < 16 := by omega
            have hcond : (0 : Nat) * 4096 + 0 * 256 + c.toNat / 16 * 16 + c.toNat % 16 < 0xD800 ∨
                0xE000 ≤ (0 : Nat) * 4096 + 0 * 256 + c.toNat / 16 * 16 + c.toNat % 16 :=
              Or.inl (by omega)
            have e : c.toNat / 16 * 16 + c.toNat % 16 = c.toNat := by omega
            simp only [escJsonChars, if_neg hq, if_neg hb, if_pos hc, List.cons_append,
              List.nil_append]
            have h0 : hexVal '0' = some 0 := rfl
            simp [parseJStringBody, parseJEscape, parseJUnicode, h0,
              hexVal_hexDigitChar (c.toNat / 16) h3lt, hexVal_hexDigitChar (c.toNat % 16) h4lt,
              hcond, e, Char.ofNat_toNat, ih]
            intro h1
            omega
          · simp only [escJsonChars, if_neg hq, if_neg hb, if_neg hc, List.cons_append,
              List.nil_append]
            simp [parseJStringBody, hq, hb, hc, ih]

/-- Parsing the serialized state payload yields the two-field object,
consuming the whole input (any fuel at least 4 suffices; the nesting
depth of the payload is 2). -/
theorem parseJValue_payload (k : Nat) (X Y : String) :
    parseJValue (k + 4) (stringifyStateChars X Y) =
      some (.dict [("csrf", .str X), ("verifier", .str Y)], []) := by
  have hkey1 : ∀ r : List Char,
      parseJStringBody ('c' :: 's' :: 'r' :: 'f' :: '"' :: r) = some ("csrf".data, r) :=
    fun r => parseJStringBody_esc "csrf".data r
  have hkey2 : ∀ r : List Char,
      parseJStringBody ('v' :: 'e' :: 'r' :: 'i' :: 'f' :: 'i' :: 'e' :: 'r' :: '"' :: r) =
        some ("verifier".data, r) :=
    fun r => parseJStringBody_esc "verifier".data r
  simp only [stringifyStateChars, List.cons_append, List.nil_append, List.append_assoc]
  simp [parseJValue, parseJMembers, skipWs, isJsonWs, List.dropWhile, hkey1, hkey2,
    parseJStringBody_esc, upsert]

/-- Model of `json.loads` recovers the state payload object from its
serialized text. -/
theorem jsonParse_payload (X Y : String) :
    jsonParse (String.mk (stringifyStateChars X Y)) =
      some (.dict [("csrf", .str X), ("verifier", .str Y)]) := by
  have hlen : 3 ≤ (stringifyStateChars X Y).length := by
    simp [stringifyStateChars]
  obtain ⟨k, hk⟩ : ∃ k, (stringifyStateChars X Y).length + 1 = k + 4 :=
    ⟨(stringifyStateChars X Y).length - 3, by omega⟩
  have hdata : (String.mk (stringifyStateChars X Y)).data = stringifyStateChars X Y := rfl
  have hl : (String.mk (stringifyStateChars X Y)).length = (stringifyStateChars X Y).length := rfl
  unfold jsonParse
  rw [hdata, hl, hk, parseJValue_payload]
  simp [skipWs]

/-- Model of `json.loads` with its exception wrapper recovers the state
payload object. -/
theorem jsonLoadsPy_payload (X Y : String) :
    jsonLoadsPy (String.mk (stringifyStateChars X Y)) =
      .ok (.dict [("csrf", .str X), ("verifier", .str Y)]) := by
  simp [jsonLoadsPy, jsonParse_payload]

/-- C9: round-trip — for all strings X and Y with Y non-empty, encoding
the payload with csrf X and verifier Y as base64-encoded JSON and then
running the handler's state decoding pipeline recovers exactly the
object with csrf X and verifier Y, and the handler's state-decode step
proceeds with the verifier Y. -/
theorem state_roundtrip (X Y : String) (hY : Y ≠ "") :
    (do
      let bs ← b64decodePy (encodeState X Y)
      let sj ← utf8DecodePy bs
      jsonLoadsPy sj) = .ok (PyVal.dict [("csrf", .str X), ("verifier", .str Y)]) ∧
    decode_state (encodeState X Y) = .proceed (.str Y) := by
  have hb64 : b64decodePy (encodeState X Y) =
      .ok (utf8Encode (String.mk (stringifyStateChars X Y))) :=
    b64decodePy_encode _ (utf8Encode_lt _)
  have hutf8 : utf8DecodePy (utf8Encode (String.mk (stringifyStateChars X Y))) =
      .ok (String.mk (stringifyStateChars X Y)) :=
    utf8DecodePy_encode _
  have hjson := jsonLoadsPy_payload X Y
  constructor
  · rw [hb64]
    simp only [except_bind_ok]
    rw [hutf8]
    simp only [except_bind_ok]
    exact hjson
  · have hver : pyTruthy (PyVal.str Y) = true := by
      simp [pyTruthy, hY]
    simp [decode_state, hb64, hutf8, hjson, pyGet, List.lookup, hver]

/-- C9 witness: the concrete payload with csrf `a` and verifier `b`. -/
theorem state_roundtrip_witness :
    ("b" : String) ≠ "" ∧
    (do
      let bs ← b64decodePy (encodeState "a" "b")
      let sj ← utf8DecodePy bs
      jsonLoadsPy sj) = .ok (PyVal.dict [("csrf", .str "a"), ("verifier", .str "b")]) ∧
    decode_state (encodeState "a" "b") = .proceed (.str "b") :=
  ⟨by decide, (state_roundtrip "a" "b" (by decide)).1, (state_roundtrip "a" "b" (by decide)).2⟩
